import Mathlib

/-!
Shallow embedding of `invokeai/app/invocations/image.py`: the catalog of
image-manipulation invocations (crop, paste, mask-from-alpha, multiply,
channel, convert, blur, resize, scale, lerp, inverse-lerp, NSFW blur,
watermark).  Images are modelled as a mode (list of band names), a width,
a height and a total pixel function; 8-bit machine arithmetic is modelled
over `Nat` with explicit `% 256`, and the numpy float arithmetic of the
lerp invocations over exact rationals with an explicit C-style
float-to-uint8 truncating cast.  External collaborators (the image storage
service, the PIL resampling kernels, the Gaussian/box blur filters, the
mode converter, the NSFW safety-checker model, the caution overlay asset
and the watermark encoder) are parameters of an `InvocationContext`.
-/

namespace InvokeImage

/-- An image: a PIL mode given as its list of band names (for example
`['R','G','B','A']`), pixel dimensions, and a total pixel function giving
the 8-bit value of each band at integer coordinates.  Values outside the
bounds or band range are irrelevant junk of the total function. -/
structure Img where
  mode : List Char
  width : Nat
  height : Nat
  px : Int → Int → Nat → Nat

instance : Inhabited Img := ⟨⟨['L'], 0, 0, fun _ _ _ => 0⟩⟩

/-- Pixel-level equality of two images: same mode, same dimensions and the
same band values at every in-bounds coordinate (byte-identical content). -/
def Img.Equiv (a b : Img) : Prop :=
  a.mode = b.mode ∧ a.width = b.width ∧ a.height = b.height ∧
    ∀ x y c, 0 ≤ x → x < (a.width : Int) → 0 ≤ y → y < (a.height : Int) →
      c < a.mode.length → a.px x y c = b.px x y c

/-- All stored band values are 8-bit (≤ 255) in bounds. -/
def Img.WellFormed8 (a : Img) : Prop :=
  ∀ x y c, 0 ≤ x → x < (a.width : Int) → 0 ≤ y → y < (a.height : Int) →
    a.px x y c ≤ 255

/-- `Image.new("RGBA", (w, h), (0, 0, 0, 0))`: a fully transparent RGBA
canvas. -/
def newRGBA (w h : Nat) : Img :=
  { mode := ['R', 'G', 'B', 'A'], width := w, height := h, px := fun _ _ _ => 0 }

/-- Pillow's `MULDIV255(a, b)` rounding helper:
`tmp = a*b + 128; ((tmp >> 8) + tmp) >> 8`. -/
def muldiv255 (a b : Nat) : Nat :=
  ((a * b + 128) / 256 + (a * b + 128)) / 256

/-- Pillow's `BLEND(mask, in1, in2)` used by `paste` with a mask:
`MULDIV255(in1, 255 - mask) + MULDIV255(in2, mask)`. -/
def blend (m d s : Nat) : Nat := muldiv255 d (255 - m) + muldiv255 s m

/-- `dest.paste(src, (ox, oy))` without a mask: inside the pasted box the
destination band values are replaced by the source's, elsewhere they are
unchanged.  The destination's mode and size are unchanged. -/
def pasteAt (dest src : Img) (ox oy : Int) : Img :=
  { dest with px := fun x y c =>
      if ox ≤ x ∧ x < ox + src.width ∧ oy ≤ y ∧ y < oy + src.height then
        src.px (x - ox) (y - oy) c
      else dest.px x y c }

/-- The band Pillow uses as the paste mask: the last band of the mask image
(the only band of an `L` mask, the alpha band of an `RGBA` mask). -/
def maskBand (m : Img) (x y : Int) : Nat := m.px x y (m.mode.length - 1)

/-- `dest.paste(src, (ox, oy), mask)`: inside the pasted box the result is
Pillow's `BLEND` of destination and source through the mask band. -/
def pasteMask (dest src mask : Img) (ox oy : Int) : Img :=
  { dest with
    px := fun x y c =>
      if ox ≤ x ∧ x < ox + src.width ∧ oy ≤ y ∧ y < oy + src.height then
        blend (maskBand mask (x - ox) (y - oy)) (dest.px x y c)
          (src.px (x - ox) (y - oy) c)
      else dest.px x y c }

/-- `ImageOps.invert`: every band value replaced by `255 - v`. -/
def invertImg (a : Img) : Img :=
  { a with px := fun x y c => 255 - a.px x y c }

/-- `image.split()[-1]`: the last band of the image as a single-band `L`
image (the alpha band of `RGBA`, the blue band of an alpha-less `RGB`). -/
def splitLast (a : Img) : Img :=
  { mode := ['L'], width := a.width, height := a.height,
    px := fun x y _ => a.px x y (a.mode.length - 1) }

/-- `image.getchannel(c)`: the band named `c` as a single-band `L` image;
a missing channel name raises (`none`). -/
def getchannel (a : Img) (c : Char) : Option Img :=
  if c ∈ a.mode then
    some { mode := ['L'], width := a.width, height := a.height,
           px := fun x y _ => a.px x y (a.mode.indexOf c) }
  else none

/-- `ImageChops.multiply(image1, image2)`: bandwise `MULDIV255` product. -/
def multiplyChops (a b : Img) : Img :=
  { a with px := fun x y c => muldiv255 (a.px x y c) (b.px x y c) }

/-- Truncation toward zero, the C cast a numpy float-to-integer conversion
performs. -/
def fptrunc (q : Rat) : Int := if q < 0 then ⌈q⌉ else ⌊q⌋

/-- `numpy.uint8(q)` on a float value: truncate toward zero and keep the
low byte. -/
def npUint8 (q : Rat) : Nat := ((fptrunc q) % 256).toNat

/-- `ImageLerpInvocation`'s per-pixel transform (lines 550-553):
`arr = asarray(image, float32) / 255; arr = arr * (max - min) + max;
uint8(arr)` — note the source adds `self.max`, not `self.min`.  The numpy
float32 arithmetic is modelled by exact rational arithmetic. -/
def lerp_pixel (mn mx v : Nat) : Nat :=
  npUint8 ((v : Rat) / 255 * ((mx : Rat) - (mn : Rat)) + (mx : Rat))

/-- `ImageInverseLerpInvocation`'s per-pixel transform (lines 593-601) at a
nonzero divisor: `uint8(minimum(maximum(arr - min, 0) / (max - min), 1) * 255)`. -/
def ilerp_pixel (mn mx v : Nat) : Nat :=
  npUint8 (min (max ((v : Rat) - (mn : Rat)) 0 / ((mx : Rat) - (mn : Rat))) 1 * 255)

/-- The inverse-lerp per-pixel transform with its failure mode explicit:
the source divides by `float(self.max - self.min)` unconditionally, so a
zero divisor (`max == min`) makes every element of the array the result of
a division by zero (numpy inf/nan, undefined as a uint8); that degenerate
division is modelled as `none`. -/
def ilerp_pixel? (mn mx v : Nat) : Option Nat :=
  if (mx : Rat) - (mn : Rat) = 0 then none else some (ilerp_pixel mn mx v)

/-- The inverse-lerp transform on a whole image, `none` when the divisor
`max - min` is zero. -/
def ilerpImage? (mn mx : Nat) (a : Img) : Option Img :=
  if (mx : Rat) - (mn : Rat) = 0 then none
  else some { a with px := fun x y c => ilerp_pixel mn mx (a.px x y c) }

/-- The lerp transform on a whole image. -/
def lerpImage (mn mx : Nat) (a : Img) : Img :=
  { a with px := fun x y c => lerp_pixel mn mx (a.px x y c) }

/-- The pixel generator a resampling kernel provides: from the source image
and the target dimensions, a pixel function for the result. -/
def KernelPx : Type := Img → Nat → Nat → Int → Int → Nat → Nat

/-- `image.resize((w, h), resample=k)`: Pillow allocates an image of
exactly the requested size whose pixels the resampling kernel fills. -/
def resizeIm (a : Img) (w h : Nat) (k : KernelPx) : Img :=
  { mode := a.mode, width := w, height := h, px := k a w h }

/-- `ResourceOrigin` of a stored image; every invocation here stores with
`INTERNAL`. -/
inductive ResourceOrigin
  | INTERNAL
  | EXTERNAL
deriving DecidableEq

/-- `ImageCategory` of a stored image: `GENERAL` for images, `MASK` for
masks. -/
inductive ImageCategory
  | GENERAL
  | MASK
deriving DecidableEq

/-- The optional `CoreMetadata` payload two invocations may attach to the
stored image (an opaque record to this file). -/
structure CoreMetadata where
  payload : List (String × String)
deriving DecidableEq

/-- The record the storage collaborator returns from `create`: the name it
assigned plus the stored image's dimensions. -/
structure ImageDTO where
  image_name : String
  width : Nat
  height : Nat

/-- One call to `context.services.images.create(...)`: the arguments of a
single write to the image storage collaborator. -/
structure CreateCall where
  image : Img
  image_origin : ResourceOrigin
  image_category : ImageCategory
  node_id : String
  session_id : String
  is_intermediate : Bool
  metadata : Option CoreMetadata

instance : Inhabited CreateCall :=
  ⟨⟨default, ResourceOrigin.INTERNAL, ImageCategory.GENERAL, "", "", false,
      none⟩⟩

/-- `ImageOutput`: reference to the stored image plus its dimensions as
read back from the freshly stored record. -/
structure ImageOutput where
  image : String
  width : Nat
  height : Nat

/-- `MaskOutput`: reference to the stored mask plus its dimensions. -/
structure MaskOutput where
  mask : String
  width : Nat
  height : Nat

/-- The six `PIL_RESAMPLING_MODES`. -/
inductive ResampleMode
  | nearest
  | box
  | bilinear
  | hamming
  | bicubic
  | lanczos
deriving DecidableEq

/-- The two blur types of `ImageBlurInvocation`. -/
inductive BlurType
  | gaussian
  | box
deriving DecidableEq

/-- The external collaborators an invocation reaches through
`context.services` plus the external library operations this file only
calls: the image fetcher, the name the storage will assign to the next
created image, the session id, the PIL mode converter, the blur filters,
the resampling kernels, the NSFW safety-checker verdict, the caution
overlay asset and the watermark encoder. -/
structure InvocationContext where
  get : String → Img
  fresh : String
  graph_execution_state_id : String
  convertFn : List Char → Img → Img
  gaussianBlur : Rat → Img → Img
  boxBlur : Rat → Img → Img
  kernel : ResampleMode → KernelPx
  nsfwChecker : Img → Bool
  cautionAsset : Img
  watermarkEncode : String → Img → Img

/-- `context.services.images.create(image, INTERNAL, category, node_id,
session_id, is_intermediate, metadata)`: the single storage write an
invocation performs, as the recorded call plus the returned record. -/
def createImage (ctx : InvocationContext) (img : Img) (cat : ImageCategory)
    (node : String) (inter : Bool) (md : Option CoreMetadata) :
    CreateCall × ImageDTO :=
  (⟨img, ResourceOrigin.INTERNAL, cat, node, ctx.graph_execution_state_id,
      inter, md⟩,
    ⟨ctx.fresh, img.width, img.height⟩)

/-- `ImageCropInvocation`: crops an image to a specified box; the box may
lie outside of the image. -/
structure ImageCropInvocation where
  image : String
  x : Int
  y : Int
  width : Nat
  height : Nat
  id : String
  is_intermediate : Bool

/-- `ImageCropInvocation.invoke` (lines 113-134): paste the source into a
fresh transparent RGBA canvas of the requested size at `(-x, -y)`, store
it once, return the stored reference and dimensions. -/
def ImageCropInvocation.invoke (self : ImageCropInvocation)
    (ctx : InvocationContext) : List CreateCall × ImageOutput :=
  let image := ctx.get self.image
  let image_crop := pasteAt (newRGBA self.width self.height) image
    (-self.x) (-self.y)
  let cd := createImage ctx image_crop ImageCategory.GENERAL self.id
    self.is_intermediate none
  ([cd.1], ⟨cd.2.image_name, cd.2.width, cd.2.height⟩)

/-- `ImagePasteInvocation`: pastes an image into another image, with an
optional mask. -/
structure ImagePasteInvocation where
  base_image : String
  image : String
  mask : Option String
  x : Int
  y : Int
  id : String
  is_intermediate : Bool

/-- `ImagePasteInvocation.invoke` (lines 159-195): build a transparent
RGBA canvas covering the union of the base image's box and the pasted
image's offset box, paste the base at `(|min_x|, |min_y|)`, paste the
image at `(max 0 x, max 0 y)` through the inverted optional mask, store
once. -/
def ImagePasteInvocation.invoke (self : ImagePasteInvocation)
    (ctx : InvocationContext) : List CreateCall × ImageOutput :=
  let base_image := ctx.get self.base_image
  let image := ctx.get self.image
  let mask : Option Img := self.mask.map fun n => invertImg (ctx.get n)
  let min_x : Int := min 0 self.x
  let min_y : Int := min 0 self.y
  let max_x : Int := max (base_image.width : Int) ((image.width : Int) + self.x)
  let max_y : Int := max (base_image.height : Int) ((image.height : Int) + self.y)
  let canvas := newRGBA (max_x - min_x).toNat (max_y - min_y).toNat
  let canvas1 := pasteAt canvas base_image |min_x| |min_y|
  let new_image :=
    match mask with
    | none => pasteAt canvas1 image (max 0 self.x) (max 0 self.y)
    | some m => pasteMask canvas1 image m (max 0 self.x) (max 0 self.y)
  let cd := createImage ctx new_image ImageCategory.GENERAL self.id
    self.is_intermediate none
  ([cd.1], ⟨cd.2.image_name, cd.2.width, cd.2.height⟩)

/-- `MaskFromAlphaInvocation`: extracts `image.split()[-1]` as a mask,
optionally inverted. -/
structure MaskFromAlphaInvocation where
  image : String
  invert : Bool
  id : String
  is_intermediate : Bool

/-- `MaskFromAlphaInvocation.invoke` (lines 217-237): take the last band
of the band split, invert it when requested, store once with category
`MASK`. -/
def MaskFromAlphaInvocation.invoke (self : MaskFromAlphaInvocation)
    (ctx : InvocationContext) : List CreateCall × MaskOutput :=
  let image := ctx.get self.image
  let image_mask := splitLast image
  let image_mask := if self.invert then invertImg image_mask else image_mask
  let cd := createImage ctx image_mask ImageCategory.MASK self.id
    self.is_intermediate none
  ([cd.1], ⟨cd.2.image_name, cd.2.width, cd.2.height⟩)

/-- `ImageMultiplyInvocation`: multiplies two images with
`ImageChops.multiply`. -/
structure ImageMultiplyInvocation where
  image1 : String
  image2 : String
  id : String
  is_intermediate : Bool

/-- `ImageMultiplyInvocation.invoke` (lines 259-278). -/
def ImageMultiplyInvocation.invoke (self : ImageMultiplyInvocation)
    (ctx : InvocationContext) : List CreateCall × ImageOutput :=
  let image1 := ctx.get self.image1
  let image2 := ctx.get self.image2
  let multiply_image := multiplyChops image1 image2
  let cd := createImage ctx multiply_image ImageCategory.GENERAL self.id
    self.is_intermediate none
  ([cd.1], ⟨cd.2.image_name, cd.2.width, cd.2.height⟩)

/-- `ImageChannelInvocation`: gets one of the channels `A`, `R`, `G`, `B`
from an image. -/
structure ImageChannelInvocation where
  image : String
  channel : Char
  id : String
  is_intermediate : Bool

/-- `ImageChannelInvocation.invoke` (lines 303-321): `image.getchannel`
raises when the channel is missing from the image's mode (`none`);
otherwise the single-band channel image is stored once. -/
def ImageChannelInvocation.invoke (self : ImageChannelInvocation)
    (ctx : InvocationContext) : Option (List CreateCall × ImageOutput) :=
  let image := ctx.get self.image
  (getchannel image self.channel).map fun channel_image =>
    let cd := createImage ctx channel_image ImageCategory.GENERAL self.id
      self.is_intermediate none
    ([cd.1], ⟨cd.2.image_name, cd.2.width, cd.2.height⟩)

/-- `ImageConvertInvocation`: converts an image to a different mode via
the external PIL converter. -/
structure ImageConvertInvocation where
  image : String
  mode : List Char
  id : String
  is_intermediate : Bool

/-- `ImageConvertInvocation.invoke` (lines 346-364). -/
def ImageConvertInvocation.invoke (self : ImageConvertInvocation)
    (ctx : InvocationContext) : List CreateCall × ImageOutput :=
  let image := ctx.get self.image
  let converted_image := ctx.convertFn self.mode image
  let cd := createImage ctx converted_image ImageCategory.GENERAL self.id
    self.is_intermediate none
  ([cd.1], ⟨cd.2.image_name, cd.2.width, cd.2.height⟩)

/-- `ImageBlurInvocation`: Gaussian or box blur through the external PIL
filters. -/
structure ImageBlurInvocation where
  image : String
  radius : Rat
  blur_type : BlurType
  id : String
  is_intermediate : Bool

/-- `ImageBlurInvocation.invoke` (lines 386-409). -/
def ImageBlurInvocation.invoke (self : ImageBlurInvocation)
    (ctx : InvocationContext) : List CreateCall × ImageOutput :=
  let image := ctx.get self.image
  let blur_image :=
    if self.blur_type = BlurType.gaussian then ctx.gaussianBlur self.radius image
    else ctx.boxBlur self.radius image
  let cd := createImage ctx blur_image ImageCategory.GENERAL self.id
    self.is_intermediate none
  ([cd.1], ⟨cd.2.image_name, cd.2.width, cd.2.height⟩)

/-- `ImageResizeInvocation`: resizes an image to specific dimensions. -/
structure ImageResizeInvocation where
  image : String
  width : Nat
  height : Nat
  resample_mode : ResampleMode
  id : String
  is_intermediate : Bool

/-- `ImageResizeInvocation.invoke` (lines 453-476): `image.resize((width,
height), resample)` returns an image of exactly the requested size. -/
def ImageResizeInvocation.invoke (self : ImageResizeInvocation)
    (ctx : InvocationContext) : List CreateCall × ImageOutput :=
  let image := ctx.get self.image
  let resize_image := resizeIm image self.width self.height
    (ctx.kernel self.resample_mode)
  let cd := createImage ctx resize_image ImageCategory.GENERAL self.id
    self.is_intermediate none
  ([cd.1], ⟨cd.2.image_name, cd.2.width, cd.2.height⟩)

/-- `ImageScaleInvocation`: scales an image by a factor (a Python float,
modelled as an exact rational). -/
structure ImageScaleInvocation where
  image : String
  scale_factor : Rat
  resample_mode : ResampleMode
  id : String
  is_intermediate : Bool

/-- `ImageScaleInvocation.invoke` (lines 499-524): target dimensions are
`int(width * scale_factor)` and `int(height * scale_factor)` (truncation
toward zero). -/
def ImageScaleInvocation.invoke (self : ImageScaleInvocation)
    (ctx : InvocationContext) : List CreateCall × ImageOutput :=
  let image := ctx.get self.image
  let width := (fptrunc ((image.width : Rat) * self.scale_factor)).toNat
  let height := (fptrunc ((image.height : Rat) * self.scale_factor)).toNat
  let resize_image := resizeIm image width height
    (ctx.kernel self.resample_mode)
  let cd := createImage ctx resize_image ImageCategory.GENERAL self.id
    self.is_intermediate none
  ([cd.1], ⟨cd.2.image_name, cd.2.width, cd.2.height⟩)

/-- `ImageLerpInvocation`: linear interpolation of all pixels. -/
structure ImageLerpInvocation where
  image : String
  min : Nat
  max : Nat
  id : String
  is_intermediate : Bool

/-- `ImageLerpInvocation.invoke` (lines 547-568). -/
def ImageLerpInvocation.invoke (self : ImageLerpInvocation)
    (ctx : InvocationContext) : List CreateCall × ImageOutput :=
  let image := ctx.get self.image
  let lerp_image := lerpImage self.min self.max image
  let cd := createImage ctx lerp_image ImageCategory.GENERAL self.id
    self.is_intermediate none
  ([cd.1], ⟨cd.2.image_name, cd.2.width, cd.2.height⟩)

/-- `ImageInverseLerpInvocation`: inverse linear interpolation of all
pixels. -/
structure ImageInverseLerpInvocation where
  image : String
  min : Nat
  max : Nat
  id : String
  is_intermediate : Bool

/-- `ImageInverseLerpInvocation.invoke` (lines 590-616): the transform
divides by `float(self.max - self.min)` with no guard, so a zero divisor
is the modelled failure (`none`). -/
def ImageInverseLerpInvocation.invoke (self : ImageInverseLerpInvocation)
    (ctx : InvocationContext) : Option (List CreateCall × ImageOutput) :=
  let image := ctx.get self.image
  (ilerpImage? self.min self.max image).map fun ilerp_image =>
    let cd := createImage ctx ilerp_image ImageCategory.GENERAL self.id
      self.is_intermediate none
    ([cd.1], ⟨cd.2.image_name, cd.2.width, cd.2.height⟩)

/-- `ImageNSFWBlurInvocation`: blurs NSFW-flagged images and pastes the
caution overlay on top. -/
structure ImageNSFWBlurInvocation where
  image : String
  enabled : Bool
  metadata : Option CoreMetadata
  id : String
  is_intermediate : Bool

/-- `_get_caution_img` (lines 683-686): the caution asset resized to half
its dimensions (integer floor division, default bicubic resampling). -/
def getCautionImg (ctx : InvocationContext) : Img :=
  let caution := ctx.cautionAsset
  resizeIm caution (caution.width / 2) (caution.height / 2)
    (ctx.kernel ResampleMode.bicubic)

/-- `ImageNSFWBlurInvocation.invoke` (lines 639-681): when enabled and the
safety checker reports a concept, replace the image by a Gaussian-blurred
copy (radius 32) with the caution overlay pasted at `(0, 0)` through its
own alpha; otherwise pass the fetched image through unchanged.  One store
with the optional metadata attached. -/
def ImageNSFWBlurInvocation.invoke (self : ImageNSFWBlurInvocation)
    (ctx : InvocationContext) : List CreateCall × ImageOutput :=
  let image := ctx.get self.image
  let image :=
    if self.enabled then
      if ctx.nsfwChecker image then
        let blurry_image := ctx.gaussianBlur 32 image
        let caution := getCautionImg ctx
        pasteMask blurry_image caution caution 0 0
      else image
    else image
  let cd := createImage ctx image ImageCategory.GENERAL self.id
    self.is_intermediate self.metadata
  ([cd.1], ⟨cd.2.image_name, cd.2.width, cd.2.height⟩)

/-- `ImageWatermarkInvocation`: embeds an invisible watermark through the
external codec when enabled. -/
structure ImageWatermarkInvocation where
  image : String
  text : String
  enabled : Bool
  metadata : Option CoreMetadata
  id : String
  is_intermediate : Bool

/-- `ImageWatermarkInvocation.invoke` (lines 712-744). -/
def ImageWatermarkInvocation.invoke (self : ImageWatermarkInvocation)
    (ctx : InvocationContext) : List CreateCall × ImageOutput :=
  let image := ctx.get self.image
  let image := if self.enabled then ctx.watermarkEncode self.text image else image
  let cd := createImage ctx image ImageCategory.GENERAL self.id
    self.is_intermediate self.metadata
  ([cd.1], ⟨cd.2.image_name, cd.2.width, cd.2.height⟩)

/-- Storage discipline of one invocation run returning an `ImageOutput`:
exactly one write to the storage collaborator, the written image tagged
with the caller-supplied flag, and the returned reference naming the
freshly stored image (hence none of the inputs, the storage-assigned name
being fresh). -/
def StoresOnceI (r : List CreateCall × ImageOutput) (inputs : List String)
    (flag : Bool) (freshName : String) : Prop :=
  (∃ c, r.1 = [c] ∧ c.is_intermediate = flag) ∧
    r.2.image = freshName ∧ (freshName ∉ inputs → r.2.image ∉ inputs)

/-- Storage discipline of one invocation run returning a `MaskOutput`. -/
def StoresOnceM (r : List CreateCall × MaskOutput) (inputs : List String)
    (flag : Bool) (freshName : String) : Prop :=
  (∃ c, r.1 = [c] ∧ c.is_intermediate = flag) ∧
    r.2.mask = freshName ∧ (freshName ∉ inputs → r.2.mask ∉ inputs)

/-- Concrete fixture: a 1×1 fully transparent RGBA image. -/
def imgRGBA1 : Img :=
  { mode := ['R', 'G', 'B', 'A'], width := 1, height := 1, px := fun _ _ _ => 0 }

/-- Concrete fixture: a 2×2 fully transparent RGBA image (stands for the
caution asset in degenerate instantiations). -/
def imgRGBA2 : Img :=
  { mode := ['R', 'G', 'B', 'A'], width := 2, height := 2, px := fun _ _ _ => 0 }

/-- Concrete fixture: a 1×1 three-band RGB image. -/
def imgRGB1 : Img :=
  { mode := ['R', 'G', 'B'], width := 1, height := 1, px := fun _ _ _ => 0 }

/-- Concrete fixture context: every stored name resolves to the 1×1
transparent RGBA image, the storage assigns the name `out`, and the
external library operations are instantiated by simple concrete
functions. -/
def baseCtx : InvocationContext :=
  { get := fun _ => imgRGBA1
    fresh := "out"
    graph_execution_state_id := "sess"
    convertFn := fun _ a => a
    gaussianBlur := fun _ a => a
    boxBlur := fun _ a => a
    kernel := fun _ => fun _ _ _ _ _ _ => 0
    nsfwChecker := fun _ => false
    cautionAsset := imgRGBA2
    watermarkEncode := fun _ a => a }

/-- Fixture context whose safety checker always reports a concept and
whose caution asset is the 2×2 transparent image; its Gaussian blur is
the identity, which agrees with the real filter on constant images. -/
def nsfwCtx : InvocationContext :=
  { baseCtx with
    nsfwChecker := fun _ => true }

/-- Fixture context resolving every name to the 1×1 RGB image. -/
def rgbCtx : InvocationContext :=
  { baseCtx with
    get := fun _ => imgRGB1 }

/-- Fixture NSFW invocation, enabled, on input `a`. -/
def nsfwOn : ImageNSFWBlurInvocation :=
  { image := "a", enabled := true, metadata := none, id := "n",
    is_intermediate := false }

/-- Fixture crop invocation: a 2×2 crop of `a` at `(-1, 0)`. -/
def cropFix : ImageCropInvocation :=
  { image := "a", x := -1, y := 0, width := 2, height := 2, id := "n",
    is_intermediate := true }

/-- Fixture paste invocation without a mask. -/
def pasteFix : ImagePasteInvocation :=
  { base_image := "a", image := "b", mask := none, x := 0, y := 0,
    id := "n", is_intermediate := true }

/-- Fixture mask-from-alpha invocations, inverted and not. -/
def tomaskInv : MaskFromAlphaInvocation :=
  { image := "a", invert := true, id := "n", is_intermediate := true }

/-- Fixture mask-from-alpha invocation without inversion. -/
def tomaskId : MaskFromAlphaInvocation :=
  { image := "a", invert := false, id := "n", is_intermediate := true }

/-- Fixture multiply invocation. -/
def mulFix : ImageMultiplyInvocation :=
  { image1 := "a", image2 := "b", id := "n", is_intermediate := true }

/-- Fixture channel invocation extracting `A`. -/
def chanFix : ImageChannelInvocation :=
  { image := "a", channel := 'A', id := "n", is_intermediate := true }

/-- Fixture convert invocation to mode `L`. -/
def convFix : ImageConvertInvocation :=
  { image := "a", mode := ['L'], id := "n", is_intermediate := true }

/-- Fixture Gaussian blur invocation. -/
def blurFix : ImageBlurInvocation :=
  { image := "a", radius := 8, blur_type := BlurType.gaussian, id := "n",
    is_intermediate := true }

/-- Fixture resize invocation to 64×64. -/
def rszFix : ImageResizeInvocation :=
  { image := "a", width := 64, height := 64,
    resample_mode := ResampleMode.bicubic, id := "n", is_intermediate := true }

/-- Fixture scale invocation by a factor of 2. -/
def sclFix : ImageScaleInvocation :=
  { image := "a", scale_factor := 2, resample_mode := ResampleMode.bicubic,
    id := "n", is_intermediate := true }

/-- Fixture lerp invocation. -/
def lrpFix : ImageLerpInvocation :=
  { image := "a", min := 0, max := 255, id := "n", is_intermediate := true }

/-- Fixture inverse-lerp invocation with a nonzero divisor. -/
def ilrpFix : ImageInverseLerpInvocation :=
  { image := "a", min := 0, max := 255, id := "n", is_intermediate := true }

/-- Fixture inverse-lerp invocation with `max = min`. -/
def ilrpDegenerate : ImageInverseLerpInvocation :=
  { image := "a", min := 128, max := 128, id := "n", is_intermediate := true }

/-- Fixture disabled NSFW invocation. -/
def nsfwOff : ImageNSFWBlurInvocation :=
  { image := "a", enabled := false, metadata := none, id := "n",
    is_intermediate := true }

/-- Fixture watermark invocation. -/
def wmkFix : ImageWatermarkInvocation :=
  { image := "a", text := "InvokeAI", enabled := true, metadata := none,
    id := "n", is_intermediate := true }

/-- Claim C1 (evaluation of the code at the failing input): with
`min = 0, max = 255`, the lerp transform of `ImageLerpInvocation` maps the
8-bit pixel value `0` to `255` (the source adds `self.max` instead of
`self.min` at line 551), and applying the inverse-lerp transform of
`ImageInverseLerpInvocation` to that result yields `255`, not `0` within
8-bit quantization error — the two transforms are not approximate
inverses at this input. -/
theorem C1_lerp_roundtrip_fails_at_zero :
    lerp_pixel 0 255 0 = 255 ∧
      ilerp_pixel? 0 255 (lerp_pixel 0 255 0) = some 255 := by
  have h1 : lerp_pixel 0 255 0 = 255 := by
    norm_num [lerp_pixel, npUint8, fptrunc]
    rfl
  refine ⟨h1, ?_⟩
  rw [h1]
  norm_num [ilerp_pixel?, ilerp_pixel, npUint8, fptrunc]
  rfl

/-- Claim C2 (counterexample): with `min = max = 128`, the inverse-lerp
pixel transform reaches the unguarded division by
`float(self.max - self.min) = 0` (modelled as `none`): it does perform a
division by zero, contrary to the claim. -/
theorem C2_division_by_zero_counterexample :
    ilerp_pixel? 128 128 64 = none := by
  norm_num [ilerp_pixel?]

/-- Claim C2 (amended): `ImageInverseLerpInvocation` does not guard
`max == min`; for every `min = max` in `[0, 255]` its pixel transform
performs the division with a zero divisor on every pixel, and the whole
invocation is the modelled failure. -/
theorem C2_unguarded_division_when_max_eq_min (ctx : InvocationContext)
    (self : ImageInverseLerpInvocation) (hmin : self.min ≤ 255)
    (hmax : self.max ≤ 255) (h : self.max = self.min) :
    self.invoke ctx = none ∧
      ∀ v, ilerp_pixel? self.min self.max v = none := by
  have hz : ((self.max : Rat) - (self.min : Rat)) = 0 := by
    rw [h]
    ring
  constructor
  · unfold ImageInverseLerpInvocation.invoke ilerpImage?
    simp [hz]
  · intro v
    unfold ilerp_pixel?
    simp [hz]

/-- Claim C2 witness: the amended statement at the concrete degenerate
invocation `min = max = 128`. -/
theorem C2_unguarded_division_witness :
    ilrpDegenerate.min ≤ 255 ∧ ilrpDegenerate.max = ilrpDegenerate.min ∧
      ilrpDegenerate.invoke baseCtx = none :=
  ⟨by decide, by decide,
    (C2_unguarded_division_when_max_eq_min baseCtx ilrpDegenerate (by decide)
        (by decide) (by decide)).1⟩

/-- Claim C4: the canvas produced by `ImagePasteInvocation` has bounds
equal to the union of the base image's box anchored at the origin and the
pasted image's box offset by `(x, y)`: its width is
`max(base.width, image.width + x) - min(0, x)` and its height is
`max(base.height, image.height + y) - min(0, y)`. -/
theorem C4_paste_canvas_bounds (ctx : InvocationContext)
    (self : ImagePasteInvocation) :
    (((self.invoke ctx).2.width : Int) =
        max ((ctx.get self.base_image).width : Int)
          (((ctx.get self.image).width : Int) + self.x) - min 0 self.x) ∧
    (((self.invoke ctx).2.height : Int) =
        max ((ctx.get self.base_image).height : Int)
          (((ctx.get self.image).height : Int) + self.y) - min 0 self.y) := by
  have hW : (self.invoke ctx).2.width =
      (max ((ctx.get self.base_image).width : Int)
          (((ctx.get self.image).width : Int) + self.x) - min 0 self.x).toNat := by
    cases hm : self.mask <;>
      simp [ImagePasteInvocation.invoke, hm, pasteAt, pasteMask, newRGBA,
        createImage]
  have hH : (self.invoke ctx).2.height =
      (max ((ctx.get self.base_image).height : Int)
          (((ctx.get self.image).height : Int) + self.y) - min 0 self.y).toNat := by
    cases hm : self.mask <;>
      simp [ImagePasteInvocation.invoke, hm, pasteAt, pasteMask, newRGBA,
        createImage]
  constructor
  · rw [hW, Int.toNat_of_nonneg (by omega)]
  · rw [hH, Int.toNat_of_nonneg (by omega)]

/-- Claim C10: the output of `ImageResizeInvocation` has exactly the
requested width and height, and the output of `ImageScaleInvocation` with
`scale_factor > 0` has width `floor(input.width * scale_factor)` and
height `floor(input.height * scale_factor)` exactly. -/
theorem C10_resize_scale_dimensions (ctx : InvocationContext)
    (rs : ImageResizeInvocation) (sc : ImageScaleInvocation)
    (hf : 0 < sc.scale_factor) :
    (rs.invoke ctx).2.width = rs.width ∧
    (rs.invoke ctx).2.height = rs.height ∧
    (((sc.invoke ctx).2.width : Int) =
      ⌊((ctx.get sc.image).width : Rat) * sc.scale_factor⌋) ∧
    (((sc.invoke ctx).2.height : Int) =
      ⌊((ctx.get sc.image).height : Rat) * sc.scale_factor⌋) := by
  refine ⟨rfl, rfl, ?_, ?_⟩
  · have hq : (0 : Rat) ≤ ((ctx.get sc.image).width : Rat) * sc.scale_factor :=
      mul_nonneg (Nat.cast_nonneg _) hf.le
    show (((fptrunc (((ctx.get sc.image).width : Rat) * sc.scale_factor)).toNat : Int)) = _
    rw [fptrunc, if_neg (not_lt.mpr hq),
      Int.toNat_of_nonneg (Int.floor_nonneg.mpr hq)]
  · have hq : (0 : Rat) ≤ ((ctx.get sc.image).height : Rat) * sc.scale_factor :=
      mul_nonneg (Nat.cast_nonneg _) hf.le
    show (((fptrunc (((ctx.get sc.image).height : Rat) * sc.scale_factor)).toNat : Int)) = _
    rw [fptrunc, if_neg (not_lt.mpr hq),
      Int.toNat_of_nonneg (Int.floor_nonneg.mpr hq)]

/-- Claim C10 witness: at the concrete fixtures, the resize output is
64×64 and the scale output of the 1×1 input at factor 2 has width
`floor(1 * 2) = 2`. -/
theorem C10_resize_scale_dimensions_witness :
    (0 : Rat) < sclFix.scale_factor ∧
    (rszFix.invoke baseCtx).2.width = rszFix.width ∧
    (((sclFix.invoke baseCtx).2.width : Int) =
      ⌊((baseCtx.get sclFix.image).width : Rat) * sclFix.scale_factor⌋) :=
  ⟨by norm_num [sclFix],
    (C10_resize_scale_dimensions baseCtx rszFix sclFix
        (by norm_num [sclFix])).1,
    (C10_resize_scale_dimensions baseCtx rszFix sclFix
        (by norm_num [sclFix])).2.2.1⟩

/-- Claim C3: for every RGBA source image and crop parameters `x, y`
(possibly negative) and positive width and height, `ImageCropInvocation`
stores an image of exactly the requested width and height in which the
source appears at offset `(-x, -y)` — the pixel at `(u, v)` equals the
source pixel at `(u + x, v + y)` when that lies inside the source — and
every pixel outside the pasted source region has RGBA value
`(0, 0, 0, 0)`, i.e. `0` on every band.  (Pillow converts a non-RGBA
source before pasting; the conversion is the identity on RGBA sources,
which is the scope of the band-wise paste modelled here.) -/
theorem C3_crop_geometry (ctx : InvocationContext)
    (self : ImageCropInvocation) (hw : 0 < self.width) (hh : 0 < self.height)
    (hmode : (ctx.get self.image).mode = ['R', 'G', 'B', 'A']) :
    (((self.invoke ctx).1.headI).image.width = self.width) ∧
    (((self.invoke ctx).1.headI).image.height = self.height) ∧
    ∀ u v : Int, 0 ≤ u → u < (self.width : Int) → 0 ≤ v →
      v < (self.height : Int) →
      ((0 ≤ u + self.x ∧ u + self.x < ((ctx.get self.image).width : Int) ∧
          0 ≤ v + self.y ∧ v + self.y < ((ctx.get self.image).height : Int)) →
        ∀ c, ((self.invoke ctx).1.headI).image.px u v c =
          (ctx.get self.image).px (u + self.x) (v + self.y) c) ∧
      (¬(0 ≤ u + self.x ∧ u + self.x < ((ctx.get self.image).width : Int) ∧
          0 ≤ v + self.y ∧ v + self.y < ((ctx.get self.image).height : Int)) →
        ∀ c, ((self.invoke ctx).1.headI).image.px u v c = 0) := by
  refine ⟨rfl, rfl, ?_⟩
  intro u v hu0 hu hv0 hv
  have hpx : ∀ c, ((self.invoke ctx).1.headI).image.px u v c =
      if -self.x ≤ u ∧ u < -self.x + ((ctx.get self.image).width : Int) ∧
          -self.y ≤ v ∧ v < -self.y + ((ctx.get self.image).height : Int) then
        (ctx.get self.image).px (u - -self.x) (v - -self.y) c
      else 0 :=
    fun _ => rfl
  constructor
  · intro hin c
    rw [hpx c, if_pos ⟨by omega, by omega, by omega, by omega⟩,
      sub_neg_eq_add, sub_neg_eq_add]
  · intro hout c
    rw [hpx c, if_neg (by omega)]

/-- Claim C3 witness: the crop geometry at the concrete 2×2 crop of the
1×1 RGBA fixture at `(-1, 0)`. -/
theorem C3_crop_geometry_witness :
    (0 < cropFix.width ∧ 0 < cropFix.height ∧
      (baseCtx.get cropFix.image).mode = ['R', 'G', 'B', 'A']) ∧
    ((cropFix.invoke baseCtx).1.headI).image.width = cropFix.width :=
  ⟨⟨by decide, by decide, rfl⟩,
    (C3_crop_geometry baseCtx cropFix (by decide) (by decide) rfl).1⟩

/-- Claim C7: with `invert = false` the mask `MaskFromAlphaInvocation`
stores is `image.split()[-1]`, the last band of the band split; this is
the alpha channel when the mode lists alpha last (RGBA), but for an
alpha-less RGB input it is the blue channel. -/
theorem C7_mask_is_last_band (ctx : InvocationContext)
    (self : MaskFromAlphaInvocation) (hinv : self.invert = false) :
    (((self.invoke ctx).1.headI).image = splitLast (ctx.get self.image)) ∧
    ((ctx.get self.image).mode = ['R', 'G', 'B', 'A'] →
      ∃ ach, getchannel (ctx.get self.image) 'A' = some ach ∧
        Img.Equiv (((self.invoke ctx).1.headI).image) ach) ∧
    ((ctx.get self.image).mode = ['R', 'G', 'B'] →
      ∃ bch, getchannel (ctx.get self.image) 'B' = some bch ∧
        Img.Equiv (((self.invoke ctx).1.headI).image) bch) := by
  have hd : ((self.invoke ctx).1.headI).image = splitLast (ctx.get self.image) := by
    simp [MaskFromAlphaInvocation.invoke, hinv, createImage]
  refine ⟨hd, ?_, ?_⟩
  · intro hm
    have hA : 'A' ∈ (ctx.get self.image).mode := by
      rw [hm]
      decide
    have hgA : getchannel (ctx.get self.image) 'A' = some
        { mode := ['L'], width := (ctx.get self.image).width,
          height := (ctx.get self.image).height,
          px := fun x y _ => (ctx.get self.image).px x y
            ((ctx.get self.image).mode.indexOf 'A') } := by
      simp only [getchannel]
      rw [if_pos hA]
    refine ⟨_, hgA, ?_⟩
    rw [hd]
    refine ⟨rfl, rfl, rfl, ?_⟩
    intro x y c _ _ _ _ _
    have hix : ((ctx.get self.image).mode.length - 1) =
        (ctx.get self.image).mode.indexOf 'A' := by
      rw [hm]
      decide
    show (ctx.get self.image).px x y ((ctx.get self.image).mode.length - 1) =
      (ctx.get self.image).px x y ((ctx.get self.image).mode.indexOf 'A')
    rw [hix]
  · intro hm
    have hB : 'B' ∈ (ctx.get self.image).mode := by
      rw [hm]
      decide
    have hgB : getchannel (ctx.get self.image) 'B' = some
        { mode := ['L'], width := (ctx.get self.image).width,
          height := (ctx.get self.image).height,
          px := fun x y _ => (ctx.get self.image).px x y
            ((ctx.get self.image).mode.indexOf 'B') } := by
      simp only [getchannel]
      rw [if_pos hB]
    refine ⟨_, hgB, ?_⟩
    rw [hd]
    refine ⟨rfl, rfl, rfl, ?_⟩
    intro x y c _ _ _ _ _
    have hix : ((ctx.get self.image).mode.length - 1) =
        (ctx.get self.image).mode.indexOf 'B' := by
      rw [hm]
      decide
    show (ctx.get self.image).px x y ((ctx.get self.image).mode.length - 1) =
      (ctx.get self.image).px x y ((ctx.get self.image).mode.indexOf 'B')
    rw [hix]

/-- Claim C7 witness: on the concrete RGB fixture the stored "alpha" mask
is the blue channel. -/
theorem C7_mask_is_last_band_witness :
    tomaskId.invert = false ∧ (rgbCtx.get tomaskId.image).mode = ['R', 'G', 'B'] ∧
    ∃ bch, getchannel (rgbCtx.get tomaskId.image) 'B' = some bch ∧
      Img.Equiv (((tomaskId.invoke rgbCtx).1.headI).image) bch :=
  ⟨by decide, rfl, (C7_mask_is_last_band rgbCtx tomaskId rfl).2.2 rfl⟩

/-- Claim C8: for every 8-bit input image, inverting the extracted mask
twice is the identity: the mask stored by `MaskFromAlphaInvocation` with
`invert = true`, inverted once more, is pixel-for-pixel equal to the mask
stored with `invert = false` on the same image. -/
theorem C8_double_invert_identity (ctx : InvocationContext)
    (st sf : MaskFromAlphaInvocation) (himg : st.image = sf.image)
    (ht : st.invert = true) (hf : sf.invert = false)
    (hwf : (ctx.get st.image).WellFormed8) :
    Img.Equiv (invertImg (((st.invoke ctx).1.headI).image))
      (((sf.invoke ctx).1.headI).image) := by
  have ht' : ((st.invoke ctx).1.headI).image =
      invertImg (splitLast (ctx.get st.image)) := by
    simp [MaskFromAlphaInvocation.invoke, ht, createImage]
  have hf' : ((sf.invoke ctx).1.headI).image =
      splitLast (ctx.get sf.image) := by
    simp [MaskFromAlphaInvocation.invoke, hf, createImage]
  rw [ht', hf', ← himg]
  refine ⟨rfl, rfl, rfl, ?_⟩
  intro x y c hx0 hx hy0 hy _
  have hb := hwf x y ((ctx.get st.image).mode.length - 1) hx0 hx hy0 hy
  show 255 - (255 - (ctx.get st.image).px x y ((ctx.get st.image).mode.length - 1)) =
    (ctx.get st.image).px x y ((ctx.get st.image).mode.length - 1)
  omega

/-- Claim C8 witness: the double inversion identity at the concrete RGBA
fixture. -/
theorem C8_double_invert_identity_witness :
    tomaskInv.invert = true ∧ tomaskId.invert = false ∧
    (baseCtx.get tomaskInv.image).WellFormed8 ∧
    Img.Equiv (invertImg (((tomaskInv.invoke baseCtx).1.headI).image))
      (((tomaskId.invoke baseCtx).1.headI).image) :=
  ⟨by decide, by decide, fun _ _ _ _ _ _ _ => by norm_num [baseCtx, imgRGBA1],
    C8_double_invert_identity baseCtx tomaskInv tomaskId rfl rfl rfl
      (fun _ _ _ _ _ _ _ => by norm_num [baseCtx, imgRGBA1])⟩

/-- Claim C9: for every source image whose mode contains the requested
channel (one of `A`, `R`, `G`, `B`), `ImageChannelInvocation` stores a
single-channel (`L`) image of the source's dimensions that is
pixel-for-pixel equal to the named channel (the band at the channel's
index in the mode). -/
theorem C9_channel_extraction (ctx : InvocationContext)
    (self : ImageChannelInvocation) (hch : self.channel ∈ ['A', 'R', 'G', 'B'])
    (hc : self.channel ∈ (ctx.get self.image).mode) :
    ∃ r, self.invoke ctx = some r ∧
      (r.1.headI).image.mode = ['L'] ∧
      (r.1.headI).image.width = (ctx.get self.image).width ∧
      (r.1.headI).image.height = (ctx.get self.image).height ∧
      ∀ x y c, (r.1.headI).image.px x y c =
        (ctx.get self.image).px x y
          ((ctx.get self.image).mode.indexOf self.channel) := by
  have hg : getchannel (ctx.get self.image) self.channel = some
      { mode := ['L'], width := (ctx.get self.image).width,
        height := (ctx.get self.image).height,
        px := fun x y _ => (ctx.get self.image).px x y
          ((ctx.get self.image).mode.indexOf self.channel) } := by
    simp only [getchannel]
    rw [if_pos hc]
  unfold ImageChannelInvocation.invoke
  simp only [hg, Option.map_some']
  exact ⟨_, rfl, rfl, rfl, rfl, fun _ _ _ => rfl⟩

/-- Claim C9 witness: extracting channel `A` from the RGBA fixture. -/
theorem C9_channel_extraction_witness :
    (chanFix.channel ∈ ['A', 'R', 'G', 'B'] ∧
      chanFix.channel ∈ (baseCtx.get chanFix.image).mode) ∧
    ∃ r, chanFix.invoke baseCtx = some r ∧
      (r.1.headI).image.mode = ['L'] ∧
      (r.1.headI).image.width = (baseCtx.get chanFix.image).width ∧
      (r.1.headI).image.height = (baseCtx.get chanFix.image).height ∧
      ∀ x y c, (r.1.headI).image.px x y c =
        (baseCtx.get chanFix.image).px x y
          ((baseCtx.get chanFix.image).mode.indexOf chanFix.channel) :=
  ⟨⟨by decide, by decide⟩,
    C9_channel_extraction baseCtx chanFix (by decide) (by decide)⟩

/-- Claim C5 (amended): with `enabled = false`, `ImageNSFWBlurInvocation`
stores exactly the fetched input image (byte-identical); with
`enabled = true` and the safety checker reporting a concept, it stores the
caution overlay pasted at `(0, 0)` (through the overlay's own alpha) over
a radius-32 Gaussian-blurred copy of the input — which need not differ
from the input in degenerate cases. -/
theorem C5_nsfw_passthrough_or_redaction (ctx : InvocationContext)
    (self : ImageNSFWBlurInvocation) :
    (self.enabled = false →
      ((self.invoke ctx).1.headI).image = ctx.get self.image) ∧
    (self.enabled = true → ctx.nsfwChecker (ctx.get self.image) = true →
      ((self.invoke ctx).1.headI).image =
        pasteMask (ctx.gaussianBlur 32 (ctx.get self.image))
          (getCautionImg ctx) (getCautionImg ctx) 0 0) := by
  constructor
  · intro h
    simp [ImageNSFWBlurInvocation.invoke, h, createImage]
  · intro h hn
    simp [ImageNSFWBlurInvocation.invoke, h, hn, createImage]

/-- Claim C5 witness: the redaction shape at a concrete enabled invocation
whose checker reports a concept. -/
theorem C5_nsfw_passthrough_or_redaction_witness :
    nsfwOn.enabled = true ∧
    nsfwCtx.nsfwChecker (nsfwCtx.get nsfwOn.image) = true ∧
    ((nsfwOn.invoke nsfwCtx).1.headI).image =
      pasteMask (nsfwCtx.gaussianBlur 32 (nsfwCtx.get nsfwOn.image))
        (getCautionImg nsfwCtx) (getCautionImg nsfwCtx) 0 0 :=
  ⟨rfl, rfl,
    (C5_nsfw_passthrough_or_redaction nsfwCtx nsfwOn).2 rfl rfl⟩

/-- Claim C5 (counterexample to the claim as stated): an enabled
invocation whose safety checker reports a concept can nevertheless store
an image pixel-identical to its input — here the blur fixes the constant
transparent input and the caution overlay is fully transparent, so the
redacted output equals the input and the claimed "the stored output
differs from the input" fails. -/
theorem C5_output_equals_input_counterexample :
    nsfwOn.enabled = true ∧
    nsfwCtx.nsfwChecker (nsfwCtx.get nsfwOn.image) = true ∧
    Img.Equiv (((nsfwOn.invoke nsfwCtx).1.headI).image)
      (nsfwCtx.get nsfwOn.image) := by
  refine ⟨rfl, rfl, rfl, rfl, rfl, ?_⟩
  intro x y c _ _ _ _ _
  show (pasteMask (nsfwCtx.gaussianBlur 32 (nsfwCtx.get nsfwOn.image))
      (getCautionImg nsfwCtx) (getCautionImg nsfwCtx) 0 0).px x y c =
    (nsfwCtx.get nsfwOn.image).px x y c
  unfold pasteMask
  dsimp only
  split
  · simp [blend, muldiv255, maskBand, getCautionImg, resizeIm, nsfwCtx,
      baseCtx, imgRGBA1, imgRGBA2, nsfwOn]
  · rfl

/-- Claim C6: each of the thirteen image-deriving invocations of the
catalog performs exactly one write to the image storage collaborator per
`invoke`, tags the stored image with the caller-supplied
`is_intermediate` flag, and returns a reference naming the freshly stored
image — hence not any input, the storage-assigned name being fresh.
Fetched inputs are never mutated: every derived image is a new value and
the single write is the only storage effect.  The channel invocation
needs its channel present in the input's mode and the inverse-lerp
invocation a nonzero `max - min`; otherwise those two fail before
writing. -/
theorem C6_storage_discipline (ctx : InvocationContext)
    (crop : ImageCropInvocation) (paste : ImagePasteInvocation)
    (tomask : MaskFromAlphaInvocation) (mul : ImageMultiplyInvocation)
    (chan : ImageChannelInvocation) (conv : ImageConvertInvocation)
    (blur : ImageBlurInvocation) (rsz : ImageResizeInvocation)
    (scl : ImageScaleInvocation) (lrp : ImageLerpInvocation)
    (ilrp : ImageInverseLerpInvocation) (nsfw : ImageNSFWBlurInvocation)
    (wmk : ImageWatermarkInvocation)
    (hchan : chan.channel ∈ (ctx.get chan.image).mode)
    (hilerp : ilrp.max ≠ ilrp.min) :
    StoresOnceI (crop.invoke ctx) [crop.image] crop.is_intermediate ctx.fresh ∧
    StoresOnceI (paste.invoke ctx)
      (paste.base_image :: paste.image :: paste.mask.toList)
      paste.is_intermediate ctx.fresh ∧
    StoresOnceM (tomask.invoke ctx) [tomask.image] tomask.is_intermediate
      ctx.fresh ∧
    StoresOnceI (mul.invoke ctx) [mul.image1, mul.image2]
      mul.is_intermediate ctx.fresh ∧
    (∃ r, chan.invoke ctx = some r ∧
      StoresOnceI r [chan.image] chan.is_intermediate ctx.fresh) ∧
    StoresOnceI (conv.invoke ctx) [conv.image] conv.is_intermediate ctx.fresh ∧
    StoresOnceI (blur.invoke ctx) [blur.image] blur.is_intermediate ctx.fresh ∧
    StoresOnceI (rsz.invoke ctx) [rsz.image] rsz.is_intermediate ctx.fresh ∧
    StoresOnceI (scl.invoke ctx) [scl.image] scl.is_intermediate ctx.fresh ∧
    StoresOnceI (lrp.invoke ctx) [lrp.image] lrp.is_intermediate ctx.fresh ∧
    (∃ r, ilrp.invoke ctx = some r ∧
      StoresOnceI r [ilrp.image] ilrp.is_intermediate ctx.fresh) ∧
    StoresOnceI (nsfw.invoke ctx) [nsfw.image] nsfw.is_intermediate ctx.fresh ∧
    StoresOnceI (wmk.invoke ctx) [wmk.image] wmk.is_intermediate ctx.fresh := by
  have hzq : ((ilrp.max : Rat) - (ilrp.min : Rat)) ≠ 0 := by
    intro h0
    exact hilerp (by exact_mod_cast sub_eq_zero.mp h0)
  have hg : getchannel (ctx.get chan.image) chan.channel = some
      { mode := ['L'], width := (ctx.get chan.image).width,
        height := (ctx.get chan.image).height,
        px := fun x y _ => (ctx.get chan.image).px x y
          ((ctx.get chan.image).mode.indexOf chan.channel) } := by
    simp only [getchannel]
    rw [if_pos hchan]
  have hil : ilerpImage? ilrp.min ilrp.max (ctx.get ilrp.image) = some
      { mode := (ctx.get ilrp.image).mode,
        width := (ctx.get ilrp.image).width,
        height := (ctx.get ilrp.image).height,
        px := fun x y c => ilerp_pixel ilrp.min ilrp.max
          ((ctx.get ilrp.image).px x y c) } := by
    unfold ilerpImage?
    rw [if_neg hzq]
  refine ⟨⟨⟨_, rfl, rfl⟩, rfl, fun h => h⟩, ⟨⟨_, rfl, rfl⟩, rfl, fun h => h⟩,
    ⟨⟨_, rfl, rfl⟩, rfl, fun h => h⟩, ⟨⟨_, rfl, rfl⟩, rfl, fun h => h⟩,
    ?_, ⟨⟨_, rfl, rfl⟩, rfl, fun h => h⟩, ⟨⟨_, rfl, rfl⟩, rfl, fun h => h⟩,
    ⟨⟨_, rfl, rfl⟩, rfl, fun h => h⟩, ⟨⟨_, rfl, rfl⟩, rfl, fun h => h⟩,
    ⟨⟨_, rfl, rfl⟩, rfl, fun h => h⟩, ?_,
    ⟨⟨_, rfl, rfl⟩, rfl, fun h => h⟩, ⟨⟨_, rfl, rfl⟩, rfl, fun h => h⟩⟩
  · unfold ImageChannelInvocation.invoke
    simp only [hg, Option.map_some']
    exact ⟨_, rfl, ⟨_, rfl, rfl⟩, rfl, fun h => h⟩
  · unfold ImageInverseLerpInvocation.invoke
    simp only [hil, Option.map_some']
    exact ⟨_, rfl, ⟨_, rfl, rfl⟩, rfl, fun h => h⟩

/-- Claim C6 witness: the storage discipline at the concrete fixture
invocations (crop, channel and inverse-lerp components shown). -/
theorem C6_storage_discipline_witness :
    (chanFix.channel ∈ (baseCtx.get chanFix.image).mode ∧
      ilrpFix.max ≠ ilrpFix.min) ∧
    StoresOnceI (cropFix.invoke baseCtx) [cropFix.image]
      cropFix.is_intermediate baseCtx.fresh ∧
    (∃ r, chanFix.invoke baseCtx = some r ∧
      StoresOnceI r [chanFix.image] chanFix.is_intermediate baseCtx.fresh) ∧
    (∃ r, ilrpFix.invoke baseCtx = some r ∧
      StoresOnceI r [ilrpFix.image] ilrpFix.is_intermediate baseCtx.fresh) := by
  have h := C6_storage_discipline baseCtx cropFix pasteFix tomaskId mulFix
    chanFix convFix blurFix rszFix sclFix lrpFix ilrpFix nsfwOff wmkFix
    (by decide) (by decide)
  exact ⟨⟨by decide, by decide⟩, h.1, h.2.2.2.2.1,
    h.2.2.2.2.2.2.2.2.2.2.1⟩

end InvokeImage
